import Mathlib

/-!
Shallow embedding of `src/rust/net/src/infra.rs` (libsignal's transport
establishment layer): HTTP request decorators, connection parameters, and the
staggered address-racing TCP connect algorithm, together with proofs of the
specification claims about them.

External collaborators (the `http` crate's URI types, the `tokio` TCP stack,
the TLS engine, and the DNS resolver) are modelled as explicit data and
environment records; their behaviour is taken from the documented semantics the
source code relies on.
-/

set_option autoImplicit false

namespace Infra

/-! ## Path-and-query model (the `http` crate's `PathAndQuery`)

`HttpRequestDecorator::PathPrefix` re-parses the concatenated string with
`PathAndQuery::from_str`, so the decorator's panic behaviour depends on that
parser: bytes of the path section must come from a fixed allowed set, `?`
starts the query section, and `#` truncates the remainder (fragment dropped).
-/

/-- Characters the `http` crate accepts verbatim in the path section
(`0x21`, `0x24..=0x3B`, `0x3D`, `0x40..=0x5F`, `0x61..=0x7A`, `0x7C`, `0x7E`);
bytes `0x7F..=0xFF` are also tolerated. -/
def pathCharOk (c : Char) : Bool :=
  let n := c.toNat
  n == 0x21 || (0x24 ≤ n && n ≤ 0x3B) || n == 0x3D || (0x40 ≤ n && n ≤ 0x5F) ||
    (0x61 ≤ n && n ≤ 0x7A) || n == 0x7C || n == 0x7E || 0x7F ≤ n

/-- Characters the `http` crate accepts verbatim in the query section
(`0x21`, `0x24..=0x3B`, `0x3D`, `0x3F..=0x7E`); bytes `0x7F..=0xFF` are also
tolerated. -/
def queryCharOk (c : Char) : Bool :=
  let n := c.toNat
  n == 0x21 || (0x24 ≤ n && n ≤ 0x3B) || n == 0x3D || (0x3F ≤ n && n ≤ 0x7E) || 0x7F ≤ n

/-- A parsed path-and-query: the raw path characters (before the `?`, possibly
empty) and, when a `?` was present, the query characters after it. -/
structure PathAndQuery where
  path : String
  query : Option String
  deriving DecidableEq, Repr

/-- Scan the query section: stop at `#` (fragment truncated), fail on a
character outside the allowed query set. -/
def scanQuery : List Char → Option (List Char)
  | [] => some []
  | c :: cs =>
    if c = '#' then some []
    else if queryCharOk c then (scanQuery cs).map (fun q => c :: q)
    else none

/-- Scan the path section: `?` switches to the query section, `#` truncates,
any other character must be in the allowed path set. -/
def scanPath : List Char → Option (List Char × Option (List Char))
  | [] => some ([], none)
  | c :: cs =>
    if c = '?' then (scanQuery cs).map (fun q => ([], some q))
    else if c = '#' then some ([], none)
    else if pathCharOk c then (scanPath cs).map (fun pq => (c :: pq.1, pq.2))
    else none

/-- `PathAndQuery::from_str`: parse a string into a path-and-query, rejecting
disallowed characters and dropping any fragment. -/
def PathAndQuery.from_str (s : String) : Option PathAndQuery :=
  (scanPath s.toList).map (fun pq => ⟨String.mk pq.1, pq.2.map String.mk⟩)

/-- `PathAndQuery::as_str`: the stored data, i.e. the path followed by
`?query` when a query is present. -/
def PathAndQuery.as_str (pq : PathAndQuery) : String :=
  match pq.query with
  | some q => pq.path ++ "?" ++ q
  | none => pq.path

/-- `PathAndQuery::path`: the path section, with the empty path rendered
as "/". -/
def PathAndQuery.pathStr (pq : PathAndQuery) : String :=
  if pq.path = "" then "/" else pq.path

/-! ## URI parts and `Uri::from_parts` -/

/-- URI parts as exposed by `Uri::into_parts`: optional scheme, optional
authority, optional path-and-query. -/
structure Uri where
  scheme : Option String
  authority : Option String
  pq : Option PathAndQuery
  deriving DecidableEq, Repr

/-- `Uri::from_parts`: a scheme requires an authority and a path-and-query;
without a scheme, an authority together with a path-and-query is rejected. -/
def Uri.from_parts (scheme authority : Option String) (pq : Option PathAndQuery) :
    Option Uri :=
  match scheme with
  | some _ =>
    match authority with
    | none => none
    | some _ =>
      match pq with
      | none => none
      | some _ => some ⟨scheme, authority, pq⟩
  | none =>
    if authority.isSome && pq.isSome then none
    else some ⟨scheme, authority, pq⟩

/-- `Uri::path` semantics: the path of the path-and-query when present,
otherwise "/". -/
def Uri.pathStr (u : Uri) : String :=
  match u.pq with
  | some pq => pq.pathStr
  | none => "/"

/-- The query component of a URI, when present. -/
def Uri.queryStr (u : Uri) : Option String :=
  match u.pq with
  | some pq => pq.query
  | none => none

/-! ## HTTP request builder and decorators -/

/-- The slice of `hyper::http::request::Builder` state the decorators touch:
the URI, when one has been set (and the builder is not in an error state), and
the accumulated header list. -/
structure Builder where
  uri : Option Uri
  headers : List (String × String)
  deriving DecidableEq, Repr

/-- `HttpRequestDecorator`: header injection, path prefixing, or a generic
builder transform. -/
inductive HttpRequestDecorator where
  | HeaderAuth (auth : String)
  | PathPrefix (pre : String)
  | Generic (f : Builder → Builder)

/-- `HttpRequestDecoratorSeq`: an ordered sequence of decorators. -/
structure HttpRequestDecoratorSeq where
  decorators : List HttpRequestDecorator

/-- The string handed to `PathAndQuery::from_str` by the `PathPrefix` arm:
`format!("{}{}", prefix, pq.as_str())` when the URI has a path-and-query,
the prefix alone otherwise. -/
def decoratedPqStr (pre : String) (opq : Option PathAndQuery) : String :=
  match opq with
  | some pq => pre ++ pq.as_str
  | none => pre

/-- `HttpRequestDecorator::decorate_request`. The Rust code panics (`expect`)
when the builder has no URI, when the concatenated path-and-query fails to
parse, or when `Uri::from_parts` rejects the reassembled parts; a panic is
modelled as `none`. -/
def HttpRequestDecorator.decorate_request (d : HttpRequestDecorator) (b : Builder) :
    Option Builder :=
  match d with
  | .Generic f => some (f b)
  | .HeaderAuth auth => some { b with headers := b.headers ++ [("authorization", auth)] }
  | .PathPrefix pre =>
    match b.uri with
    | none => none
    | some u =>
      match PathAndQuery.from_str (decoratedPqStr pre u.pq) with
      | none => none
      | some npq =>
        match Uri.from_parts u.scheme u.authority (some npq) with
        | none => none
        | some nu => some { b with uri := some nu }

/-- `HttpRequestDecoratorSeq::decorate_request`: a left-to-right fold of the
decorators over the request builder (a panic anywhere aborts the fold). -/
def HttpRequestDecoratorSeq.decorate_request (s : HttpRequestDecoratorSeq)
    (b : Builder) : Option Builder :=
  s.decorators.foldlM (fun rb dec => dec.decorate_request rb) b

/-! ## Connection parameters -/

/-- Modelled from the spec: `RootCertificates` (module `infra::certs` is not
among the sources) represents trusted root certificates; here an opaque
datum. -/
structure RootCertificates where
  id : Nat
  deriving DecidableEq, Repr

/-- `IpAddr`: a v4 or v6 address (payload abstracted to a numeric value). -/
inductive IpAddr where
  | v4 (a : Nat)
  | v6 (a : Nat)
  deriving DecidableEq, Repr

/-- `url::Host`: a domain name or a concrete IP address. -/
inductive Host where
  | Domain (s : String)
  | Ipv4 (a : Nat)
  | Ipv6 (a : Nat)
  deriving DecidableEq, Repr

/-- `ip_addr_to_host`: wrap an IP address as a `url::Host`. -/
def ip_addr_to_host : IpAddr → Host
  | .v4 a => .Ipv4 a
  | .v6 a => .Ipv6 a

/-- Modelled from the spec: the `DnsResolver` boundary (module `infra::dns` is
not among the sources) — `lookup_ip(host)` yields an ordered list of IP
addresses or fails with a DNS error. -/
structure DnsResolver where
  lookup_ip : String → Except Unit (List IpAddr)

/-- `ConnectionParams`: immutable description of one network destination. -/
structure ConnectionParams where
  sni : String
  host : String
  port : Nat
  http_request_decorator : HttpRequestDecoratorSeq
  certs : RootCertificates
  dns_resolver : DnsResolver

/-- `ConnectionParams::with_decorator`: push the decorator onto the end of the
sequence, leaving every other field alone. -/
def ConnectionParams.with_decorator (p : ConnectionParams)
    (decorator : HttpRequestDecorator) : ConnectionParams :=
  { p with http_request_decorator :=
      ⟨p.http_request_decorator.decorators ++ [decorator]⟩ }

/-- `ConnectionParams::with_certs`: replace the trusted roots, leaving every
other field alone. -/
def ConnectionParams.with_certs (p : ConnectionParams) (certs : RootCertificates) :
    ConnectionParams :=
  { p with certs := certs }

/-! ## Errors and streams -/

/-- Modelled from the spec: the error kinds of `infra::errors::NetError` that
`infra.rs` constructs (module `infra::errors` is not among the sources); each
is a payload-free variant, so an error value carries no per-address detail. -/
inductive NetError where
  | DnsError
  | TcpConnectionFailed
  | SslFailedHandshake
  | SslError
  deriving DecidableEq, Repr

/-- `StreamAndHost`: an established stream together with the concrete resolved
host that produced it. -/
structure StreamAndHost (T : Type) where
  stream : T
  host : Host
  deriving DecidableEq, Repr

/-! ## The staggered address-racing connect (`connect_tcp`)

Time is measured in milliseconds. The behaviour of the operating system /
`tokio` TCP stack is an environment: for each candidate address, whether a raw
`TcpStream::connect` succeeds (and the stream it yields) and how long the
attempt takes to complete. An attempt scheduled at index `i` sleeps
`i × CONNECTION_ATTEMPT_DELAY` and then connects, so it completes at its delay
plus its own connection latency, independently of the other attempts. -/

/-- `CONNECTION_ATTEMPT_DELAY`: 200 ms stagger between successive address
attempts. -/
def CONNECTION_ATTEMPT_DELAY : Nat := 200

/-- The raw TCP environment: the outcome of `TcpStream::connect((ip, port))`
(`some streamId` on success, `none` on failure) and the latency, in
milliseconds, from the moment the attempt starts connecting until it
completes. -/
structure TcpNetwork where
  connectResult : IpAddr → Nat → Option Nat
  latency : IpAddr → Nat → Nat

/-- One scheduled connection attempt of the race: the future built for the
address at a given index, with its sleep delay, its raw connect outcome, and
the absolute time at which it completes. -/
structure TcpAttempt where
  ip : IpAddr
  delay : Nat
  result : Option Nat
  finishTime : Nat
  deriving DecidableEq, Repr

/-- The staggered futures `connect_tcp` builds: for the address at index `i`,
a delay of `CONNECTION_ATTEMPT_DELAY * i` (zero for index 0), then a raw
connection whose completion time is the delay plus that address's own
latency. -/
def staggeredAttempts (net : TcpNetwork) (port : Nat) (addrs : List IpAddr) :
    List TcpAttempt :=
  addrs.enum.map (fun p =>
    { ip := p.2
      delay := CONNECTION_ATTEMPT_DELAY * p.1
      result := net.connectResult p.2 port
      finishTime := CONNECTION_ATTEMPT_DELAY * p.1 + net.latency p.2 port })

/-- A racing attempt as seen by `first_ok`: a completion time and an optional
successful value. -/
structure RacingAttempt (α : Type) where
  finishTime : Nat
  result : Option α

/-- Modelled from the spec: the winner selection of `utils::first_ok` (module
`utils` is not among the sources) — the race yields the first attempt to
complete successfully, i.e. the successful attempt with the least completion
time, ties resolved in list order; losers' results are discarded. Returns the
winner's completion time and value. -/
def selectWinner {α : Type} : List (RacingAttempt α) → Option (Nat × α)
  | [] => none
  | a :: rest =>
    match a.result with
    | none => selectWinner rest
    | some v =>
      match selectWinner rest with
      | none => some (a.finishTime, v)
      | some tw => if tw.1 < a.finishTime then some tw else some (a.finishTime, v)

/-- Modelled from the spec: `utils::first_ok` — the value of the first attempt
to succeed, or `none` when every attempt fails. -/
def first_ok {α : Type} (l : List (RacingAttempt α)) : Option α :=
  (selectWinner l).map (fun tw => tw.2)

/-- The racing view of a scheduled TCP attempt: on success the raw stream is
paired with the host form of the attempt's IP
(`.map(|r| StreamAndHost(r, ip_addr_to_host(ip)))`). -/
def TcpAttempt.toRacing (a : TcpAttempt) : RacingAttempt (StreamAndHost Nat) :=
  { finishTime := a.finishTime
    result := a.result.map (fun s => ⟨s, ip_addr_to_host a.ip⟩) }

/-- `connect_tcp`: resolve the host, fail with `DnsError` on resolver error or
an empty address list; otherwise race the staggered attempts and return the
first success, or `TcpConnectionFailed` when every attempt fails. -/
def connect_tcp (net : TcpNetwork) (dns_resolver : DnsResolver) (host : String)
    (port : Nat) : Except NetError (StreamAndHost Nat) :=
  match dns_resolver.lookup_ip host with
  | .error _ => .error .DnsError
  | .ok dns_lookup =>
    if dns_lookup.isEmpty then .error .DnsError
    else
      match first_ok ((staggeredAttempts net port dns_lookup).map TcpAttempt.toRacing) with
      | some sh => .ok sh
      | none => .error .TcpConnectionFailed

/-- The connection attempts `connect_tcp` constructs and starts: none at all on
the DNS-failure paths (the function returns before building any future), and
one staggered attempt per resolved address otherwise. -/
def connect_tcp_started (net : TcpNetwork) (dns_resolver : DnsResolver)
    (host : String) (port : Nat) : List TcpAttempt :=
  match dns_resolver.lookup_ip host with
  | .error _ => []
  | .ok dns_lookup =>
    if dns_lookup.isEmpty then []
    else staggeredAttempts net port dns_lookup

/-! ## The production transport connector -/

/-- The TLS environment (the `boring` engine, an external collaborator):
whether building the SSL connector for the given roots and ALPN list succeeds,
and the outcome of the handshake given the SNI name and the raw TCP stream. -/
structure TlsEnv where
  builderResult : RootCertificates → List Nat → Except NetError Unit
  handshake : String → Nat → Option Nat

/-- `TcpSslTransportConnector::connect`: establish a raw TCP stream via
`connect_tcp` — the source passes `connection_params.sni` as the hostname to
resolve — then build the SSL configuration from the params' trusted roots and
the ALPN list, and perform the TLS handshake against
`connection_params.sni`. -/
def TcpSslTransportConnector.connect (net : TcpNetwork) (tls : TlsEnv)
    (connection_params : ConnectionParams) (alpn : List Nat) :
    Except NetError (StreamAndHost Nat) :=
  match connect_tcp net connection_params.dns_resolver connection_params.sni
      connection_params.port with
  | .error e => .error e
  | .ok tcpResult =>
    match tls.builderResult connection_params.certs alpn with
    | .error e => .error e
    | .ok _ =>
      match tls.handshake connection_params.sni tcpResult.stream with
      | none => .error .SslFailedHandshake
      | some ssl => .ok ⟨ssl, tcpResult.host⟩

/-! ## Basic authorization (`utils::basic_authorization`) -/

/-- The standard base64 alphabet. -/
def base64Alphabet : List Char :=
  "ABCDEFGHIJKLMNOPQRSTUVWXYZabcdefghijklmnopqrstuvwxyz0123456789+/".toList

/-- The base64 digit for a 6-bit value. -/
def b64c (n : Nat) : Char := base64Alphabet.getD n 'A'

/-- Standard base64 encoding of a byte list, with `=` padding. -/
def base64Encode : List Nat → List Char
  | [] => []
  | [b0] => [b64c (b0 / 4), b64c (b0 % 4 * 16), '=', '=']
  | [b0, b1] => [b64c (b0 / 4), b64c (b0 % 4 * 16 + b1 / 16), b64c (b1 % 16 * 4), '=']
  | b0 :: b1 :: b2 :: rest =>
    b64c (b0 / 4) :: b64c (b0 % 4 * 16 + b1 / 16) :: b64c (b1 % 16 * 4 + b2 / 64) ::
      b64c (b2 % 64) :: base64Encode rest

/-- The bytes of an ASCII string (the credentials in scope are ASCII). -/
def asciiBytes (s : String) : List Nat := s.toList.map Char.toNat

/-- Modelled from the spec: `utils::basic_authorization` (module `utils` is
not among the sources) — `"Basic " ++ base64(username ++ ":" ++ password)`. -/
def basic_authorization (username password : String) : String :=
  "Basic " ++ String.mk (base64Encode (asciiBytes (username ++ ":" ++ password)))

/-! ## Claims about the request decorators -/

/-- Whether a scheme/authority pair admits a present path-and-query under
`Uri::from_parts`: with a scheme, an authority is required; without a scheme,
no authority may be present. -/
def schemeAuthorityAdmitPq (scheme authority : Option String) : Bool :=
  match scheme with
  | some _ => authority.isSome
  | none => authority.isNone

theorem from_parts_isSome_iff (scheme authority : Option String) (npq : PathAndQuery) :
    (Uri.from_parts scheme authority (some npq)).isSome = true ↔
      schemeAuthorityAdmitPq scheme authority = true := by
  cases scheme <;> cases authority <;>
    simp [Uri.from_parts, schemeAuthorityAdmitPq]

/-- Claim C6: decorating a request whose URI is `https://host/v1?a=b` with the
`PathPrefix "/chat"` decorator yields a URI whose path component is
`/chat/v1` and whose query string `a=b` is preserved unchanged. -/
theorem path_prefix_v1_query_example :
    HttpRequestDecorator.decorate_request (HttpRequestDecorator.PathPrefix "/chat")
        { uri := some { scheme := some "https", authority := some "host",
                        pq := PathAndQuery.from_str "/v1?a=b" },
          headers := [] }
      = some { uri := some { scheme := some "https", authority := some "host",
                             pq := some { path := "/chat/v1", query := some "a=b" } },
               headers := [] }
    ∧ Uri.pathStr { scheme := some "https", authority := some "host",
                    pq := some { path := "/chat/v1", query := some "a=b" } } = "/chat/v1"
    ∧ Uri.queryStr { scheme := some "https", authority := some "host",
                     pq := some { path := "/chat/v1", query := some "a=b" } }
        = some "a=b" := by
  refine ⟨by decide, by decide, by decide⟩

/-- Claim C7: the `HeaderAuth` decorator built from
`basic_authorization("usrnm", "psswd")` adds an `authorization` header whose
value is exactly `Basic dXNybm06cHNzd2Q=`, on any request builder. -/
theorem header_auth_basic_value (b : Builder) :
    HttpRequestDecorator.decorate_request
        (HttpRequestDecorator.HeaderAuth (basic_authorization "usrnm" "psswd")) b
      = some { b with
          headers := b.headers ++ [("authorization", "Basic dXNybm06cHNzd2Q=")] } := by
  have h : basic_authorization "usrnm" "psswd" = "Basic dXNybm06cHNzd2Q=" := by decide
  rw [HttpRequestDecorator.decorate_request, h]

/-- Claim C8: the decorator sequence is applied as a left-to-right fold, in
order; a sequence holding the same `PathPrefix` decorator twice applies the
prefix twice (decorators are not deduplicated). -/
theorem decorator_seq_left_to_right_fold :
    (∀ (d1 d2 : HttpRequestDecorator) (b : Builder),
        HttpRequestDecoratorSeq.decorate_request ⟨[d1, d2]⟩ b
          = (HttpRequestDecorator.decorate_request d1 b).bind
              (fun b1 => HttpRequestDecorator.decorate_request d2 b1))
    ∧ HttpRequestDecoratorSeq.decorate_request
        ⟨[HttpRequestDecorator.PathPrefix "/chat", HttpRequestDecorator.PathPrefix "/chat"]⟩
        { uri := some { scheme := some "https", authority := some "host",
                        pq := some { path := "/v1", query := none } },
          headers := [] }
      = some { uri := some { scheme := some "https", authority := some "host",
                             pq := some { path := "/chat/chat/v1", query := none } },
               headers := [] } := by
  constructor
  · intro d1 d2 b
    cases h1 : HttpRequestDecorator.decorate_request d1 b with
    | none => simp [HttpRequestDecoratorSeq.decorate_request, List.foldlM, h1]
    | some b1 =>
      cases h2 : HttpRequestDecorator.decorate_request d2 b1 with
      | none => simp [HttpRequestDecoratorSeq.decorate_request, List.foldlM, h1, h2]
      | some b2 => simp [HttpRequestDecoratorSeq.decorate_request, List.foldlM, h1, h2]
  · decide

/-- Claim C9: `with_decorator` appends the decorator at the end of the
sequence and changes nothing else; `with_certs` replaces only the trusted
roots. -/
theorem with_decorator_with_certs_frame (p : ConnectionParams)
    (d : HttpRequestDecorator) (c : RootCertificates) :
    (p.with_decorator d).sni = p.sni
    ∧ (p.with_decorator d).host = p.host
    ∧ (p.with_decorator d).port = p.port
    ∧ (p.with_decorator d).certs = p.certs
    ∧ (p.with_decorator d).dns_resolver = p.dns_resolver
    ∧ (p.with_decorator d).http_request_decorator.decorators
        = p.http_request_decorator.decorators ++ [d]
    ∧ (p.with_certs c).certs = c
    ∧ (p.with_certs c).sni = p.sni
    ∧ (p.with_certs c).host = p.host
    ∧ (p.with_certs c).port = p.port
    ∧ (p.with_certs c).http_request_decorator = p.http_request_decorator
    ∧ (p.with_certs c).dns_resolver = p.dns_resolver :=
  ⟨rfl, rfl, rfl, rfl, rfl, rfl, rfl, rfl, rfl, rfl, rfl, rfl⟩

/-- Claim C10 counterexample: a builder whose URI is in authority form (an
authority but no scheme, such as one built from `"chat.signal.org"`) has a URI
set, and prepending `"/chat"` to its (absent) path-and-query yields the valid
path-and-query `"/chat"`; the claim then promises no panic, yet the decoration
panics, because `Uri::from_parts` rejects an authority with a path-and-query
but no scheme. -/
theorem path_prefix_panics_on_authority_form :
    (PathAndQuery.from_str "/chat").isSome = true
    ∧ HttpRequestDecorator.decorate_request (HttpRequestDecorator.PathPrefix "/chat")
        { uri := some { scheme := none, authority := some "chat.signal.org", pq := none },
          headers := [] }
      = none := by
  refine ⟨by decide, by decide⟩

/-- Claim C10 (amended): the `PathPrefix` decoration panics exactly unless the
builder has a URI set, the prefix prepended to the existing path-and-query
parses as a valid path-and-query, and the URI's scheme/authority admit a
path-and-query under `Uri::from_parts` (a scheme requires an authority; an
authority without a scheme admits none); when it does not panic and the URI
had no path-and-query, the resulting path-and-query is the parse of the
prefix alone. -/
theorem path_prefix_panic_characterisation (pre : String) (b : Builder) :
    (HttpRequestDecorator.decorate_request (HttpRequestDecorator.PathPrefix pre) b = none
      ↔ ¬ ∃ u, b.uri = some u
            ∧ (PathAndQuery.from_str (decoratedPqStr pre u.pq)).isSome = true
            ∧ schemeAuthorityAdmitPq u.scheme u.authority = true)
    ∧ (∀ u b2, b.uri = some u → u.pq = none →
        HttpRequestDecorator.decorate_request (HttpRequestDecorator.PathPrefix pre) b
          = some b2 →
        b2.uri = some ⟨u.scheme, u.authority, PathAndQuery.from_str pre⟩) := by
  cases hb : b.uri with
  | none =>
    have hdec : HttpRequestDecorator.decorate_request
        (HttpRequestDecorator.PathPrefix pre) b = none := by
      simp [HttpRequestDecorator.decorate_request, hb]
    refine ⟨⟨fun _ h => ?_, fun _ => hdec⟩, fun u b2 hu => absurd hu (by simp)⟩
    rcases h with ⟨u2, hu2, _, _⟩
    exact absurd hu2 (by simp)
  | some u =>
    cases hp : PathAndQuery.from_str (decoratedPqStr pre u.pq) with
    | none =>
      have hdec : HttpRequestDecorator.decorate_request
          (HttpRequestDecorator.PathPrefix pre) b = none := by
        simp [HttpRequestDecorator.decorate_request, hb, hp]
      refine ⟨⟨fun _ h => ?_, fun _ => hdec⟩, fun u2 b2 hu2 hpq2 hd => ?_⟩
      · rcases h with ⟨u2, hu2, hps, _⟩
        injection hu2 with hue
        subst hue
        rw [hp] at hps
        exact absurd hps (by simp)
      · rw [hdec] at hd
        exact absurd hd (by simp)
    | some npq =>
      cases hf : Uri.from_parts u.scheme u.authority (some npq) with
      | none =>
        have hdec : HttpRequestDecorator.decorate_request
            (HttpRequestDecorator.PathPrefix pre) b = none := by
          simp [HttpRequestDecorator.decorate_request, hb, hp, hf]
        refine ⟨⟨fun _ h => ?_, fun _ => hdec⟩, fun u2 b2 hu2 hpq2 hd => ?_⟩
        · rcases h with ⟨u2, hu2, _, hadm⟩
          injection hu2 with hue
          subst hue
          have hsome := (from_parts_isSome_iff u.scheme u.authority npq).2 hadm
          rw [hf] at hsome
          exact absurd hsome (by simp)
        · rw [hdec] at hd
          exact absurd hd (by simp)
      | some nu =>
        have hnu : nu = ⟨u.scheme, u.authority, some npq⟩ := by
          cases hs : u.scheme <;> rw [hs] at hf
          · cases ha : u.authority <;> rw [ha] at hf <;>
              simp [Uri.from_parts] at hf
            exact hf.symm
          · cases ha : u.authority <;> rw [ha] at hf <;>
              simp [Uri.from_parts] at hf
            exact hf.symm
        have hdec : HttpRequestDecorator.decorate_request
            (HttpRequestDecorator.PathPrefix pre) b = some { b with uri := some nu } := by
          simp [HttpRequestDecorator.decorate_request, hb, hp, hf]
        refine ⟨⟨fun h => ?_, fun h => ?_⟩, fun u2 b2 hu2 hpq2 hd => ?_⟩
        · rw [hdec] at h
          exact absurd h (by simp)
        · exact absurd ⟨u, rfl, by rw [hp]; rfl,
            (from_parts_isSome_iff u.scheme u.authority npq).1 (by rw [hf]; rfl)⟩ h
        · injection hu2 with hue
          subst hue
          rw [hdec] at hd
          injection hd with hde
          rw [← hde, hnu]
          rw [hpq2] at hp
          simp only [decoratedPqStr] at hp
          rw [hp]

/-- Witness for the amended claim C10: at a concrete scheme-and-authority URI
with no path-and-query, decorating with `PathPrefix "/chat"` does not panic
and the resulting path-and-query is the parse of the prefix alone. -/
theorem path_prefix_panic_characterisation_witness :
    (Builder.mk
        (some ⟨some "https", some "example.com", some ⟨"/chat", none⟩⟩) []).uri
      = some ⟨some "https", some "example.com", PathAndQuery.from_str "/chat"⟩ :=
  (path_prefix_panic_characterisation "/chat"
      ⟨some ⟨some "https", some "example.com", none⟩, []⟩).2
    ⟨some "https", some "example.com", none⟩
    ⟨some ⟨some "https", some "example.com", some ⟨"/chat", none⟩⟩, []⟩
    rfl rfl (by decide)

/-! ## Winner-selection lemmas for the race -/

theorem selectWinner_cons_none {α : Type} {a : RacingAttempt α}
    {rest : List (RacingAttempt α)} (ha : a.result = none) :
    selectWinner (a :: rest) = selectWinner rest := by
  simp [selectWinner, ha]

theorem selectWinner_cons_some_none {α : Type} {a : RacingAttempt α}
    {rest : List (RacingAttempt α)} {v : α} (ha : a.result = some v)
    (hr : selectWinner rest = none) :
    selectWinner (a :: rest) = some (a.finishTime, v) := by
  simp [selectWinner, ha, hr]

theorem selectWinner_cons_some_some {α : Type} {a : RacingAttempt α}
    {rest : List (RacingAttempt α)} {v : α} {tw : Nat × α} (ha : a.result = some v)
    (hr : selectWinner rest = some tw) :
    selectWinner (a :: rest)
      = if tw.1 < a.finishTime then some tw else some (a.finishTime, v) := by
  simp [selectWinner, ha, hr]

theorem selectWinner_eq_none_iff {α : Type} (l : List (RacingAttempt α)) :
    selectWinner l = none ↔ ∀ a ∈ l, a.result = none := by
  induction l with
  | nil => simp [selectWinner]
  | cons a rest ih =>
    cases ha : a.result with
    | none =>
      rw [selectWinner_cons_none ha, ih]
      constructor
      · intro h b hb
        rcases List.mem_cons.1 hb with rfl | hb
        · exact ha
        · exact h b hb
      · intro h b hb
        exact h b (List.mem_cons_of_mem a hb)
    | some v =>
      constructor
      · intro h
        cases hr : selectWinner rest with
        | none =>
          rw [selectWinner_cons_some_none ha hr] at h
          exact absurd h (by simp)
        | some tw =>
          rw [selectWinner_cons_some_some ha hr] at h
          by_cases hlt : tw.1 < a.finishTime <;> simp [hlt] at h
      · intro h
        have := h a (List.mem_cons_self a rest)
        rw [ha] at this
        exact absurd this (by simp)

theorem selectWinner_spec {α : Type} (l : List (RacingAttempt α)) (t : Nat) (v : α)
    (h : selectWinner l = some (t, v)) :
    (∃ a ∈ l, a.result = some v ∧ a.finishTime = t)
      ∧ ∀ b ∈ l, ∀ w, b.result = some w → t ≤ b.finishTime := by
  induction l generalizing t v with
  | nil => simp [selectWinner] at h
  | cons a rest ih =>
    cases ha : a.result with
    | none =>
      rw [selectWinner_cons_none ha] at h
      rcases ih t v h with ⟨⟨c, hc, hcr, hct⟩, hmin⟩
      refine ⟨⟨c, List.mem_cons_of_mem a hc, hcr, hct⟩, fun b hb w hw => ?_⟩
      rcases List.mem_cons.1 hb with rfl | hb
      · rw [ha] at hw; exact absurd hw (by simp)
      · exact hmin b hb w hw
    | some va =>
      cases hr : selectWinner rest with
      | none =>
        rw [selectWinner_cons_some_none ha hr] at h
        injection h with he
        have ht : a.finishTime = t := congrArg Prod.fst he
        have hv : va = v := congrArg Prod.snd he
        refine ⟨⟨a, List.mem_cons_self a rest, by rw [ha, hv], ht⟩,
          fun b hb w hw => ?_⟩
        rcases List.mem_cons.1 hb with rfl | hb
        · exact Nat.le_of_eq ht.symm
        · have := (selectWinner_eq_none_iff rest).1 hr b hb
          rw [this] at hw
          exact absurd hw (by simp)
      | some tw =>
        rw [selectWinner_cons_some_some ha hr] at h
        rcases ih tw.1 tw.2 (by rw [hr]) with ⟨⟨c, hc, hcr, hct⟩, hmin⟩
        by_cases hlt : tw.1 < a.finishTime
        · rw [if_pos hlt] at h
          injection h with he
          have ht : tw.1 = t := congrArg Prod.fst he
          have hv : tw.2 = v := congrArg Prod.snd he
          refine ⟨⟨c, List.mem_cons_of_mem a hc, by rw [hcr, hv], by rw [hct, ht]⟩,
            fun b hb w hw => ?_⟩
          rcases List.mem_cons.1 hb with rfl | hb
          · exact ht ▸ Nat.le_of_lt hlt
          · exact ht ▸ hmin b hb w hw
        · rw [if_neg hlt] at h
          injection h with he
          have ht : a.finishTime = t := congrArg Prod.fst he
          have hv : va = v := congrArg Prod.snd he
          refine ⟨⟨a, List.mem_cons_self a rest, by rw [ha, hv], ht⟩,
            fun b hb w hw => ?_⟩
          rcases List.mem_cons.1 hb with rfl | hb
          · exact Nat.le_of_eq ht.symm
          · exact ht ▸ Nat.le_trans (Nat.le_of_not_lt hlt) (hmin b hb w hw)

/-! ## Facts about the staggered attempt list -/

theorem mem_staggeredAttempts {net : TcpNetwork} {port : Nat} {addrs : List IpAddr}
    {a : TcpAttempt} (h : a ∈ staggeredAttempts net port addrs) :
    a.ip ∈ addrs ∧ a.result = net.connectResult a.ip port := by
  rcases List.mem_map.1 h with ⟨p, hp, rfl⟩
  have hmem : addrs[p.1]? = some p.2 := List.mem_enum_iff_getElem?.1 hp
  exact ⟨List.getElem?_mem hmem, rfl⟩

theorem staggeredAttempts_nil (net : TcpNetwork) (port : Nat) :
    staggeredAttempts net port [] = [] := rfl

theorem connect_tcp_eq_of_empty {net : TcpNetwork} {resolver : DnsResolver}
    {host : String} {port : Nat} {addrs : List IpAddr}
    (hres : resolver.lookup_ip host = .ok addrs) (he : addrs.isEmpty = true) :
    connect_tcp net resolver host port = .error .DnsError := by
  simp only [connect_tcp, hres, he, if_true]

theorem connect_tcp_eq_of_nonempty {net : TcpNetwork} {resolver : DnsResolver}
    {host : String} {port : Nat} {addrs : List IpAddr}
    (hres : resolver.lookup_ip host = .ok addrs) (he : addrs.isEmpty = false) :
    connect_tcp net resolver host port
      = match first_ok ((staggeredAttempts net port addrs).map TcpAttempt.toRacing) with
        | some sh => .ok sh
        | none => .error .TcpConnectionFailed := by
  simp only [connect_tcp, hres, he, Bool.false_eq_true, if_false]

/-! ## Claims about `connect_tcp` and the transport connector -/

/-- Claim C1: whenever `connect_tcp` succeeds, the returned value is the
stream of the attempt that succeeded first — its completion time is least
among all successful attempts, regardless of index — paired with the host
form of the IP that produced it; and whenever some attempt succeeds,
`connect_tcp` does return a success (losers' results are discarded, only the
winner's is surfaced). -/
theorem connect_tcp_returns_first_success (net : TcpNetwork)
    (resolver : DnsResolver) (host : String) (port : Nat) (addrs : List IpAddr)
    (hres : resolver.lookup_ip host = .ok addrs) :
    (∀ sh, connect_tcp net resolver host port = .ok sh →
        ∃ a ∈ staggeredAttempts net port addrs,
          a.result = some sh.stream ∧ sh.host = ip_addr_to_host a.ip
            ∧ ∀ b ∈ staggeredAttempts net port addrs, ∀ w, b.result = some w →
                a.finishTime ≤ b.finishTime)
    ∧ ((∃ a ∈ staggeredAttempts net port addrs, a.result.isSome = true) →
        ∃ sh, connect_tcp net resolver host port = .ok sh) := by
  constructor
  · intro sh hok
    cases he : addrs.isEmpty with
    | true =>
      rw [connect_tcp_eq_of_empty hres he] at hok
      exact absurd hok (by simp)
    | false =>
      rw [connect_tcp_eq_of_nonempty hres he] at hok
      cases hw : first_ok ((staggeredAttempts net port addrs).map TcpAttempt.toRacing) with
      | none =>
        simp only [hw] at hok
        exact absurd hok (by simp)
      | some sh2 =>
        simp only [hw, Except.ok.injEq] at hok
        subst hok
        rw [first_ok] at hw
        rcases Option.map_eq_some'.1 hw with ⟨⟨t, v⟩, hsel, hv⟩
        subst hv
        rcases selectWinner_spec _ t _ hsel with ⟨⟨ra, hra, hrres, hrt⟩, hmin⟩
        rcases List.mem_map.1 hra with ⟨a, ha, rfl⟩
        rcases Option.map_eq_some'.1 hrres with ⟨s, hs, hsv⟩
        refine ⟨a, ha, ?_, ?_, fun b hb w hwb => ?_⟩
        · rw [hs, ← hsv]
        · rw [← hsv]
        · have hat : a.finishTime = t := hrt
          rw [hat]
          have hbr : (TcpAttempt.toRacing b).result = some ⟨w, ip_addr_to_host b.ip⟩ := by
            simp [TcpAttempt.toRacing, hwb]
          exact hmin (TcpAttempt.toRacing b) (List.mem_map_of_mem _ hb) _ hbr
  · rintro ⟨a, ha, hsome⟩
    have hne : addrs ≠ [] := by
      intro hnil
      rw [hnil, staggeredAttempts_nil] at ha
      exact absurd ha (by simp)
    have he : addrs.isEmpty = false := by
      cases addrs with
      | nil => exact absurd rfl hne
      | cons x xs => rfl
    rw [connect_tcp_eq_of_nonempty hres he]
    cases hw : first_ok ((staggeredAttempts net port addrs).map TcpAttempt.toRacing) with
    | some sh => exact ⟨sh, rfl⟩
    | none =>
      exfalso
      have hall := (selectWinner_eq_none_iff
            ((staggeredAttempts net port addrs).map TcpAttempt.toRacing)).1
          (by rwa [first_ok, Option.map_eq_none'] at hw)
      have := hall (TcpAttempt.toRacing a) (List.mem_map_of_mem _ ha)
      rcases Option.isSome_iff_exists.1 hsome with ⟨s, hsres⟩
      simp [TcpAttempt.toRacing, hsres] at this

/-- Witness for claim C1: with two resolved addresses of which only the
second is reachable, `connect_tcp` succeeds. -/
theorem connect_tcp_returns_first_success_witness :
    ∃ sh, connect_tcp
        ⟨fun ip _ => match ip with | .v4 2 => some 5 | _ => none, fun _ _ => 10⟩
        ⟨fun _ => .ok [.v4 1, .v4 2]⟩ "example.org" 443 = .ok sh :=
  (connect_tcp_returns_first_success
      ⟨fun ip _ => match ip with | .v4 2 => some 5 | _ => none, fun _ _ => 10⟩
      ⟨fun _ => .ok [.v4 1, .v4 2]⟩ "example.org" 443 [.v4 1, .v4 2] rfl).2
    ⟨{ ip := .v4 2, delay := 200, result := some 5, finishTime := 210 },
      by decide, by decide⟩

/-- Claim C2: the attempt built for the resolved address at index `i` waits
exactly `i × CONNECTION_ATTEMPT_DELAY` (with `CONNECTION_ATTEMPT_DELAY` being
200 ms, and index 0 waiting nothing) and completes at its own delay plus its
own connection latency; one attempt exists per address, with fields depending
only on that address, so no attempt's delay affects another's schedule. -/
theorem staggered_attempts_delay (net : TcpNetwork) (port : Nat)
    (addrs : List IpAddr) (i : Nat) (a : IpAddr) (h : addrs[i]? = some a) :
    CONNECTION_ATTEMPT_DELAY = 200
    ∧ (staggeredAttempts net port addrs).length = addrs.length
    ∧ (staggeredAttempts net port addrs)[i]?
        = some { ip := a, delay := CONNECTION_ATTEMPT_DELAY * i,
                 result := net.connectResult a port,
                 finishTime := CONNECTION_ATTEMPT_DELAY * i + net.latency a port }
    ∧ (i = 0 → CONNECTION_ATTEMPT_DELAY * i = 0) := by
  refine ⟨rfl, ?_, ?_, fun h0 => by rw [h0, Nat.mul_zero]⟩
  · rw [staggeredAttempts, List.length_map, List.enum_length]
  · rw [staggeredAttempts, List.getElem?_map, List.getElem?_enum, h]
    rfl

/-- Witness for claim C2: in a concrete two-address list, the attempt at
index 1 is scheduled with a 200 ms delay. -/
theorem staggered_attempts_delay_witness :
    CONNECTION_ATTEMPT_DELAY = 200
    ∧ (staggeredAttempts ⟨fun _ _ => none, fun _ _ => 7⟩ 443 [.v4 1, .v4 2]).length = 2
    ∧ (staggeredAttempts ⟨fun _ _ => none, fun _ _ => 7⟩ 443 [.v4 1, .v4 2])[1]?
        = some { ip := .v4 2, delay := CONNECTION_ATTEMPT_DELAY * 1,
                 result := none, finishTime := CONNECTION_ATTEMPT_DELAY * 1 + 7 }
    ∧ (1 = 0 → CONNECTION_ATTEMPT_DELAY * 1 = 0) :=
  staggered_attempts_delay ⟨fun _ _ => none, fun _ _ => 7⟩ 443 [.v4 1, .v4 2] 1
    (.v4 2) (by decide)

/-- Claim C3: when the resolver fails or resolves to an empty address list,
`connect_tcp` fails with the DNS error kind and constructs no connection
attempt at all. -/
theorem connect_tcp_dns_failure (net : TcpNetwork) (resolver : DnsResolver)
    (host : String) (port : Nat)
    (h : resolver.lookup_ip host = .error () ∨ resolver.lookup_ip host = .ok []) :
    connect_tcp net resolver host port = .error .DnsError
      ∧ connect_tcp_started net resolver host port = [] := by
  rcases h with h | h <;>
    exact ⟨by simp [connect_tcp, h], by simp [connect_tcp_started, h]⟩

/-- Witness for claim C3: a resolver that always fails makes `connect_tcp`
return the DNS error and start no attempt. -/
theorem connect_tcp_dns_failure_witness :
    connect_tcp ⟨fun _ _ => some 3, fun _ _ => 0⟩ ⟨fun _ => .error ()⟩ "h" 1
        = .error .DnsError
      ∧ connect_tcp_started ⟨fun _ _ => some 3, fun _ _ => 0⟩ ⟨fun _ => .error ()⟩ "h" 1
        = [] :=
  connect_tcp_dns_failure ⟨fun _ _ => some 3, fun _ _ => 0⟩ ⟨fun _ => .error ()⟩
    "h" 1 (Or.inl rfl)

/-- Claim C4: when every connection attempt over a non-empty resolved address
list fails, `connect_tcp` returns `NetError.TcpConnectionFailed` — a
payload-free variant, so the returned value identifies neither which address
failed nor why. -/
theorem connect_tcp_all_attempts_fail (net : TcpNetwork) (resolver : DnsResolver)
    (host : String) (port : Nat) (addrs : List IpAddr)
    (hres : resolver.lookup_ip host = .ok addrs) (hne : addrs ≠ [])
    (hfail : ∀ ip ∈ addrs, net.connectResult ip port = none) :
    connect_tcp net resolver host port = .error .TcpConnectionFailed := by
  have he : addrs.isEmpty = false := by
    cases addrs with
    | nil => exact absurd rfl hne
    | cons x xs => rfl
  have hnone : first_ok ((staggeredAttempts net port addrs).map TcpAttempt.toRacing)
      = none := by
    rw [first_ok, Option.map_eq_none']
    rw [selectWinner_eq_none_iff]
    intro ra hra
    rcases List.mem_map.1 hra with ⟨a, ha, rfl⟩
    rcases mem_staggeredAttempts ha with ⟨hip, hr⟩
    simp [TcpAttempt.toRacing, hr, hfail a.ip hip]
  rw [connect_tcp_eq_of_nonempty hres he, hnone]

/-- Witness for claim C4: two unreachable addresses produce the aggregate
connection-failed error. -/
theorem connect_tcp_all_attempts_fail_witness :
    connect_tcp ⟨fun _ _ => none, fun _ _ => 4⟩ ⟨fun _ => .ok [.v4 1, .v6 2]⟩
        "example.org" 443 = .error .TcpConnectionFailed :=
  connect_tcp_all_attempts_fail ⟨fun _ _ => none, fun _ _ => 4⟩
    ⟨fun _ => .ok [.v4 1, .v6 2]⟩ "example.org" 443 [.v4 1, .v6 2] rfl
    (by decide) (by decide)

/-- Claim C5: the production connector hands `connection_params.sni` — not
`host`, contradicting the struct's own documentation — to the DNS resolver:
with `sni = "front.example"` and `host = "chat.example"`, a resolver that
resolves exactly `"chat.example"` makes `connect` fail with the DNS error,
while a resolver that resolves exactly `"front.example"` lets it succeed (the
handshake here succeeds only when given the SNI value, confirming the TLS
side does use `sni`). -/
theorem tcp_ssl_connect_queries_sni :
    TcpSslTransportConnector.connect ⟨fun _ _ => some 7, fun _ _ => 0⟩
        ⟨fun _ _ => .ok (),
          fun s st => if s = "front.example" then some (st + 1) else none⟩
        { sni := "front.example", host := "chat.example", port := 443,
          http_request_decorator := ⟨[]⟩, certs := ⟨0⟩,
          dns_resolver := ⟨fun h => if h = "chat.example" then .ok [.v4 1] else .error ()⟩ }
        [] = .error .DnsError
    ∧ TcpSslTransportConnector.connect ⟨fun _ _ => some 7, fun _ _ => 0⟩
        ⟨fun _ _ => .ok (),
          fun s st => if s = "front.example" then some (st + 1) else none⟩
        { sni := "front.example", host := "chat.example", port := 443,
          http_request_decorator := ⟨[]⟩, certs := ⟨0⟩,
          dns_resolver := ⟨fun h => if h = "front.example" then .ok [.v4 1] else .error ()⟩ }
        [] = .ok ⟨8, .Ipv4 1⟩ :=
  ⟨rfl, rfl⟩

end Infra
